import Mathlib

/-!
Verification of the UniFi Access hub reconciliation core
(`src/access-hub.ts`, `src/access-types.ts`) for homebridge-unifi-access.

The TypeScript source is shallowly embedded: pure functions become Lean
functions over an explicit data model of `AccessDeviceConfig` snapshots;
the stateful lock command / auto-reset scheduler becomes explicit state
passing over a `HubState` record, with external transport results supplied
as oracle parameters and `setTimeout` handles modelled as a list of pending
timers plus the stored handle field.
-/

namespace UnifiAccess

/-! ### JS string primitives

`String.prototype.toLowerCase`/`toUpperCase` restricted to ASCII (every
string compared by the source is ASCII), and `String.prototype.includes` /
prefix tests, modelled over the character list of a string. -/

def lowerChar (c : Char) : Char :=
  if 65 ≤ c.toNat ∧ c.toNat ≤ 90 then Char.ofNat (c.toNat + 32) else c

def upperChar (c : Char) : Char :=
  if 97 ≤ c.toNat ∧ c.toNat ≤ 122 then Char.ofNat (c.toNat - 32) else c

def strToLower (s : String) : String :=
  ⟨s.data.map lowerChar⟩

def strToUpper (s : String) : String :=
  ⟨s.data.map upperChar⟩

/-- Character class `[A-Z0-9]` used by the device-class normalization. -/
def isUpperAlnum (c : Char) : Bool :=
  (65 ≤ c.toNat && c.toNat ≤ 90) || (48 ≤ c.toNat && c.toNat ≤ 57)

/-- `(device_type ?? "").toUpperCase().replace(/[^A-Z0-9]/g, "")` from the
`AccessHub` constructor. -/
def normalizeDeviceClass (s : String) : String :=
  ⟨(s.data.map upperChar).filter isUpperAlnum⟩

def charListIsPre : List Char → List Char → Bool
  | [], _ => true
  | _ :: _, [] => false
  | a :: as, b :: bs => a == b && charListIsPre as bs

def charListSub (pat : List Char) : List Char → Bool
  | [] => pat.isEmpty
  | c :: rest => charListIsPre pat (c :: rest) || charListSub pat rest

/-- `s.includes(pat)` on JS strings. -/
def strIncludes (s pat : String) : Bool :=
  charListSub pat.data s.data

/-- `s.startsWith(pat)` on JS strings. -/
def strStartsWith (s pat : String) : Bool :=
  charListIsPre pat.data s.data

/-- JS truthiness of a `string | undefined | null` value: `undefined`,
`null` and the empty string are falsy. -/
def truthyStr : Option String → Bool
  | none => false
  | some s => !(s == "")

/-! ### Data model: device snapshots -/

/-- A raw configuration/telemetry value as found in `uda.configs` and in
extension `target_config` entries: the JS value space the source actually
inspects (`boolean`, `number`, `string`, `null`). -/
inductive ConfigValue
  | bool (b : Bool)
  | num (n : Int)
  | str (s : String)
  | null
  deriving DecidableEq, Repr

structure ConfigEntry where
  key : String
  value : ConfigValue
  deriving DecidableEq, Repr

structure TargetConfig where
  config_key : String
  config_value : ConfigValue
  deriving DecidableEq, Repr

/-- One entry of `AccessDeviceConfig.extensions`. -/
structure Extension where
  unique_id : Option String
  device_id : Option String
  extension_name : Option String
  target_name : Option String
  target_type : Option String
  target_value : Option String
  source_id : Option String
  target_config : List TargetConfig
  deriving DecidableEq, Repr

/-- The `AccessDeviceConfig` fields read by the hub logic. `doorUniqueId`
collapses the optional chain `uda.door?.unique_id` (the only way the source
ever touches `door`). -/
structure Device where
  device_type : Option String
  unique_id : String
  capabilities : List String
  configs : List ConfigEntry
  extensions : List Extension
  location_id : Option String
  doorUniqueId : Option String
  deriving DecidableEq, Repr

/-- First matching config entry, `uda.configs?.find(x => x.key === key)?.value`. -/
def findConfigValue (uda : Device) (key : String) : Option ConfigValue :=
  (uda.configs.find? (fun x => x.key == key)).map (fun x => x.value)

/-! ### Device variant classification (`access-types.ts`, `access-hub.ts`) -/

def G3_READER_CLASS_PREFIXES : List String :=
  ["UAG3READER", "UAG3B"]

def G3_READER_CLASS_EXACT_MATCHES : List String :=
  ["UAG3"]

/-- `isG3ReaderDeviceClass` from `access-types.ts`. -/
def isG3ReaderDeviceClass (normalizedDeviceClass : String) : Bool :=
  G3_READER_CLASS_EXACT_MATCHES.contains normalizedDeviceClass ||
    G3_READER_CLASS_PREFIXES.any (fun p => strStartsWith normalizedDeviceClass p)

/-- The `deviceClass` field computed in the `AccessHub` constructor. -/
def deviceClassOf (uda : Device) : String :=
  normalizeDeviceClass (uda.device_type.getD "")

/-- The `isG3Reader` getter. -/
def isG3Reader (uda : Device) : Bool :=
  isG3ReaderDeviceClass (deviceClassOf uda)

/-- The `isMiniVariant` getter. -/
def isMiniVariant (uda : Device) : Bool :=
  let deviceType := uda.device_type.getD ""
  deviceType == "UA-Hub-Door-Mini" || deviceType == "UA-ULTRA"

/-- The spec's derived `Variant` (§3): not stored by the code, but a pure
function of the device-type string combining `isG3Reader`/`isMiniVariant`. -/
inductive Variant
  | Standard
  | MiniOrUltra
  | G3Reader
  deriving DecidableEq, Repr

def classifyVariant (device_type : Option String) : Variant :=
  if isG3ReaderDeviceClass (normalizeDeviceClass (device_type.getD "")) then .G3Reader
  else if (device_type.getD "") == "UA-Hub-Door-Mini" || (device_type.getD "") == "UA-ULTRA" then
    .MiniOrUltra
  else .Standard

/-! ### Lock relay state (`hubLockState` getter) -/

/-- HomeKit `LockCurrentState` values used by the source. -/
inductive LockState
  | Unsecured
  | Secured
  | Unknown
  deriving DecidableEq, Repr

/-- The `relayType` switch in the `hubLockState` getter: the two literal
model names select the mini relay key, everything else the default key. -/
def lockRelayKey (uda : Device) : String :=
  if uda.device_type == some "UA-Hub-Door-Mini" || uda.device_type == some "UA-ULTRA" then
    "output_d1_lock_relay"
  else "input_state_rly-lock_dry"

def ACTIVE_LOCK_WORDS : List String :=
  ["on", "true", "unlocked", "open", "active"]

def INACTIVE_LOCK_WORDS : List String :=
  ["off", "false", "locked", "closed", "inactive", "secured"]

/-- The `(isRelayActive, isRelayInactive)` pair computed by the
`typeof normalizedRelayValue` switch in `hubLockState`. -/
def lockValueFlags (v : ConfigValue) : Bool × Bool :=
  match v with
  | .bool b => (b, !b)
  | .num n => (decide (n = 1), decide (n = 0))
  | .str s => (decide (strToLower s ∈ ACTIVE_LOCK_WORDS), decide (strToLower s ∈ INACTIVE_LOCK_WORDS))
  | .null => (false, false)

/-- The telemetry-derived part of the `hubLockState` getter (everything after
the G3 override shortcut). -/
def hubLockStateDerived (uda : Device) : LockState :=
  match findConfigValue uda (lockRelayKey uda) with
  | none => if isG3Reader uda then .Secured else .Unknown
  | some .null => if isG3Reader uda then .Secured else .Unknown
  | some v =>
    let flags := lockValueFlags v
    if flags.2 then .Secured
    else if flags.1 then .Unsecured
    else if isG3Reader uda then .Secured
    else .Unknown

/-- The full `hubLockState` getter, including the G3 reader override
shortcut. -/
def hubLockState (uda : Device) (g3ReaderLockStateOverride : Option LockState) : LockState :=
  if isG3Reader uda then
    match g3ReaderLockStateOverride with
    | some s => s
    | none => hubLockStateDerived uda
  else hubLockStateDerived uda

/-- The lock-relay normalizer exactly as the spec words it (§4.2): written
from the spec's sentences, to be compared with `hubLockStateDerived`. -/
def specLockStateNormalizer (uda : Device) : LockState :=
  let variant := classifyVariant uda.device_type
  let key := if variant = .MiniOrUltra then "output_d1_lock_relay" else "input_state_rly-lock_dry"
  match findConfigValue uda key with
  | none => if variant = .G3Reader then .Secured else .Unknown
  | some (.bool true) => .Unsecured
  | some (.bool false) => .Secured
  | some (.num n) =>
    if n = 1 then .Unsecured
    else if n = 0 then .Secured
    else if variant = .G3Reader then .Secured else .Unknown
  | some (.str s) =>
    if strToLower s ∈ ACTIVE_LOCK_WORDS then .Unsecured
    else if strToLower s ∈ INACTIVE_LOCK_WORDS then .Secured
    else if variant = .G3Reader then .Secured else .Unknown
  | some .null => if variant = .G3Reader then .Secured else .Unknown

/-! ### Dry contact sensors -/

inductive DryContactSensorType
  | rel
  | ren
  | rex
  deriving DecidableEq, Repr

/-- HomeKit `ContactSensorState` values used by the source. -/
inductive ContactState
  | Detected
  | NotDetected
  deriving DecidableEq, Repr

structure DryStateKeys where
  dflt : String
  mini : Option String
  deriving DecidableEq, Repr

structure DryWiringKeys where
  dflt : List String
  mini : Option (List String)
  deriving DecidableEq, Repr

structure DryContactSensorDefinition where
  stateKeys : DryStateKeys
  wiringKeys : DryWiringKeys
  deriving DecidableEq, Repr

/-- `DRY_CONTACT_SENSOR_DEFINITIONS` (state/wiring keys only; display and
log labels are presentation-layer and omitted). -/
def DRY_CONTACT_SENSOR_DEFINITIONS : DryContactSensorType → DryContactSensorDefinition
  | .rel =>
    ⟨⟨"input_state_rel", some "input_d1_rel"⟩,
      ⟨["wiring_state_rel-neg", "wiring_state_rel-pos"],
        some ["wiring_state_d1-rel-neg", "wiring_state_d1-rel-pos"]⟩⟩
  | .ren =>
    ⟨⟨"input_state_ren", some "input_d1_ren"⟩,
      ⟨["wiring_state_ren-neg", "wiring_state_ren-pos"],
        some ["wiring_state_d1-ren-neg", "wiring_state_d1-ren-pos"]⟩⟩
  | .rex =>
    ⟨⟨"input_state_rex", some "input_d1_rex"⟩,
      ⟨["wiring_state_rex-neg", "wiring_state_rex-pos"],
        some ["wiring_state_d1-rex-neg", "wiring_state_d1-rex-pos"]⟩⟩

def getDryContactStateKey (uda : Device) (sensorType : DryContactSensorType) : Option String :=
  let definition := DRY_CONTACT_SENSOR_DEFINITIONS sensorType
  if isMiniVariant uda && definition.stateKeys.mini.isSome then definition.stateKeys.mini
  else some definition.stateKeys.dflt

def getDryContactWiringKeys (uda : Device) (sensorType : DryContactSensorType) : List String :=
  let definition := DRY_CONTACT_SENSOR_DEFINITIONS sensorType
  if isMiniVariant uda && definition.wiringKeys.mini.isSome then
    definition.wiringKeys.mini.getD []
  else definition.wiringKeys.dflt

def isDryContactWired (uda : Device) (sensorType : DryContactSensorType) : Bool :=
  if isMiniVariant uda && sensorType == .rel then true
  else
    let wiringKeys := getDryContactWiringKeys uda sensorType
    if wiringKeys.isEmpty then false
    else
      (wiringKeys.filter
        (fun wire => uda.configs.any (fun x => x.key == wire && x.value == .str "on"))).length ==
        wiringKeys.length

def DRY_ACTIVE_WORDS : List String :=
  ["1", "active", "closed", "on", "true"]

def DRY_INACTIVE_WORDS : List String :=
  ["0", "inactive", "open", "off", "false"]

/-- `normalizedValue` in `getDryContactState`: lower-cased string value, or
`""` for a missing or non-string value. -/
def dryContactNormalizedValue (uda : Device) (key : String) : String :=
  match findConfigValue uda key with
  | some (.str s) => strToLower s
  | _ => ""

def getDryContactState (uda : Device) (sensorType : DryContactSensorType) : ContactState :=
  if !(isDryContactWired uda sensorType) then .Detected
  else
    match getDryContactStateKey uda sensorType with
    | none => .NotDetected
    | some key =>
      let normalizedValue := dryContactNormalizedValue uda key
      if normalizedValue ∈ DRY_ACTIVE_WORDS then .Detected
      else if normalizedValue ∈ DRY_INACTIVE_WORDS then .NotDetected
      else .NotDetected

/-! ### Access method discovery -/

inductive AccessMethodType
  | face
  | hand
  | mobile
  | nfc
  | pin
  | qr
  deriving DecidableEq, Repr

/-- `ACCESS_METHOD_TYPES = Object.keys(ACCESS_METHOD_METADATA)`, in
declaration order. -/
def ACCESS_METHOD_TYPES : List AccessMethodType :=
  [.face, .hand, .mobile, .nfc, .pin, .qr]

/-- The `keywords` column of `ACCESS_METHOD_METADATA`. -/
def accessMethodKeywords : AccessMethodType → List String
  | .face => ["face"]
  | .hand => ["hand", "wave"]
  | .mobile => ["mobile"]
  | .nfc => ["nfc"]
  | .pin => ["pin"]
  | .qr => ["qr"]

def methodTypeName : AccessMethodType → String
  | .face => "face"
  | .hand => "hand"
  | .mobile => "mobile"
  | .nfc => "nfc"
  | .pin => "pin"
  | .qr => "qr"

/-- The lower-cased identity-bearing field values scanned by
`getAccessMethodTypeFromExtension`. -/
def extensionSearchValues (e : Extension) : List String :=
  [e.extension_name, e.target_name, e.target_type, e.target_value, e.source_id].map
    (fun v => match v with | some s => strToLower s | none => "")

def getAccessMethodTypeFromExtension (e : Extension) : Option AccessMethodType :=
  ACCESS_METHOD_TYPES.find? (fun methodType =>
    (accessMethodKeywords methodType).any (fun keyword =>
      (extensionSearchValues e).any (fun value => strIncludes value keyword)))

/-- `buildAccessMethodExtensionKey`: nullish-coalescing fallback chain. -/
def buildAccessMethodExtensionKey (e : Extension) (fallback : String) : String :=
  (((((e.unique_id).or e.device_id).or e.target_name).or e.extension_name).or e.source_id).getD
    fallback

structure AccessMethodSwitchDefinition where
  configKey : String
  extensionKey : String
  methodType : AccessMethodType
  state : Bool
  deriving DecidableEq, Repr

/-- `extension.target_config?.find(config => typeof config.config_value === "boolean")`. -/
def findBoolTargetConfig (e : Extension) : Option TargetConfig :=
  e.target_config.find? (fun config =>
    match config.config_value with
    | .bool _ => true
    | _ => false)

def configBoolValue : ConfigValue → Bool
  | .bool b => b
  | _ => false

/-- The loop body of `discoverAccessMethodDefinitions`, with the `seen` set
made explicit. -/
def discoverAccessMethodDefinitionsAux :
    List AccessMethodType → List Extension → List AccessMethodSwitchDefinition
  | _, [] => []
  | seen, e :: rest =>
    match getAccessMethodTypeFromExtension e with
    | none => discoverAccessMethodDefinitionsAux seen rest
    | some methodType =>
      if methodType ∈ seen then discoverAccessMethodDefinitionsAux seen rest
      else
        match findBoolTargetConfig e with
        | none => discoverAccessMethodDefinitionsAux seen rest
        | some configEntry =>
          ⟨configEntry.config_key, buildAccessMethodExtensionKey e (methodTypeName methodType),
            methodType, configBoolValue configEntry.config_value⟩ ::
            discoverAccessMethodDefinitionsAux (methodType :: seen) rest

def discoverAccessMethodDefinitions (extensions : List Extension) :
    List AccessMethodSwitchDefinition :=
  discoverAccessMethodDefinitionsAux [] extensions

/-- An extension can produce a definition for `methodType`: it keyword-matches
that type and carries a boolean-valued target config entry. -/
def extensionYields (e : Extension) (methodType : AccessMethodType) : Bool :=
  getAccessMethodTypeFromExtension e == some methodType && (findBoolTargetConfig e).isSome

/-! ### Lock command and auto-reset scheduler

The mutable per-device fields (`_hkLockState`, `g3ReaderLockStateOverride`,
`lockResetTimer`) become a `HubState` record. `setTimeout` is modelled by a
list of pending timers carrying fresh ids plus the stored `handle`
(`lockResetTimer`); `clearTimeout` removes the owned id from the pending
list. Transport results (`udaApi.unlock`, the G3 location lock endpoint)
are oracle inputs, and the transport invocations and error reports the code
makes are recorded in ghost fields (`calls`, `resetInvocations`,
`retryExhausted`). -/

def DEFAULT_LOCK_RESET_DELAY : Nat := 5000

def G3_READER_LOCK_RESET_DELAY : Nat := 2000

def LOCK_RESET_MAX_ATTEMPTS : Nat := 6

def LOCK_RESET_RETRY_DELAY : Nat := 5000

/-- The argument passed to `udaApi.unlock`: a finite minute count or
`Infinity` (`undefined` is represented by `Option` at the call site). -/
inductive UnlockDuration
  | fin (minutes : Int)
  | inf
  deriving DecidableEq, Repr

inductive TransportCall
  | unlockCall (device : Device) (duration : Option UnlockDuration)
  | g3LockCall (device : Device)
  deriving DecidableEq, Repr

structure PendingTimer where
  id : Nat
  attempt : Nat
  delayMs : Nat
  device : Device
  deriving DecidableEq, Repr

structure HubState where
  hkLockState : LockState
  g3Override : Option LockState
  pending : List PendingTimer
  handle : Option Nat
  nextId : Nat
  calls : List TransportCall
  resetInvocations : Nat
  retryExhausted : Bool
  deriving DecidableEq, Repr

/-- The per-device configuration fixed at construction: the snapshot, the
online flag, and the post-construction `lockDelayInterval`. -/
structure HubCfg where
  uda : Device
  isOnline : Bool
  lockDelayInterval : Option Int
  deriving DecidableEq, Repr

/-- `clearTimeout(this.lockResetTimer); this.lockResetTimer = null`. -/
def cancelLockResetTimer (s : HubState) : HubState :=
  match s.handle with
  | none => s
  | some h => { s with pending := s.pending.filter (fun t => t.id != h), handle := none }

/-- `scheduleDefaultLockReset(device, attempt = 0, delay?)`. -/
def scheduleDefaultLockReset (cfg : HubCfg) (s : HubState) (device : Device) (attempt : Nat)
    (delay : Option Nat) : HubState :=
  let s1 := cancelLockResetTimer s
  let effectiveDelay :=
    delay.getD (if isG3Reader cfg.uda then G3_READER_LOCK_RESET_DELAY else DEFAULT_LOCK_RESET_DELAY)
  { s1 with
    pending := s1.pending ++ [⟨s1.nextId, attempt, effectiveDelay, device⟩],
    handle := some s1.nextId,
    nextId := s1.nextId + 1 }

inductive ResetCmdOutcome
  | ok
  | fail
  | exc
  deriving DecidableEq, Repr

/-- Oracle for one invocation of `resetLockToDefaultState`: the offline
check and the relock command result (success, falsy return, or thrown
error). -/
structure ResetEnv where
  isOnline : Bool
  outcome : ResetCmdOutcome
  deriving DecidableEq, Repr

/-- `resetLockToDefaultState(device, attempt)`. The G3 branch returns after
forcing the override and tracked state to Secured; otherwise the relock
command `udaApi.unlock(device, 0)` is attempted with the bounded fixed-delay
retry loop. -/
def resetLockToDefaultState (cfg : HubCfg) (env : ResetEnv) (s0 : HubState) (device : Device)
    (attempt : Nat) : HubState :=
  let s := { s0 with resetInvocations := s0.resetInvocations + 1 }
  if isG3Reader cfg.uda then
    { s with g3Override := some .Secured, hkLockState := .Secured }
  else if !env.isOnline then
    if attempt + 1 < LOCK_RESET_MAX_ATTEMPTS then
      scheduleDefaultLockReset cfg s device (attempt + 1) (some LOCK_RESET_RETRY_DELAY)
    else { s with retryExhausted := true }
  else
    let s1 := { s with calls := s.calls ++ [.unlockCall device (some (.fin 0))] }
    match env.outcome with
    | .ok => { s1 with hkLockState := .Secured }
    | _ =>
      if attempt + 1 < LOCK_RESET_MAX_ATTEMPTS then
        scheduleDefaultLockReset cfg s1 device (attempt + 1) (some LOCK_RESET_RETRY_DELAY)
      else { s1 with retryExhausted := true }

/-- The `setTimeout` callback firing for pending timer `t`: the timer is
consumed, `lockResetTimer` is nulled, then `resetLockToDefaultState` runs. -/
def fireLockResetTimer (cfg : HubCfg) (env : ResetEnv) (s : HubState) (t : PendingTimer) :
    HubState :=
  let s1 := { s with pending := s.pending.filter (fun u => u.id != t.id), handle := none }
  resetLockToDefaultState cfg env s1 t.device t.attempt

/-- The `unlockDuration` computation at the top of `hubLockCommand`. -/
def computeUnlockDuration (isLocking : Bool) (lockDelayInterval : Option Int) :
    Option UnlockDuration :=
  if isLocking then some (.fin 0)
  else
    match lockDelayInterval with
    | none => none
    | some n => if n = 0 then some .inf else some (.fin n)

/-- `this.uda.location_id ?? this.uda.door?.unique_id`. -/
def resolvedLocationId (uda : Device) : Option String :=
  uda.location_id.or uda.doorUniqueId

/-- `getCommandDeviceConfig`. -/
def getCommandDeviceConfig (uda : Device) : Option Device :=
  if uda.capabilities.contains "is_hub" then some uda
  else if !(isG3Reader uda) then none
  else
    let locationId := resolvedLocationId uda
    if !(truthyStr locationId) && !(truthyStr uda.location_id) then none
    else
      some { uda with
        capabilities := uda.capabilities ++ ["is_hub"],
        location_id :=
          if truthyStr locationId && locationId != uda.location_id then locationId
          else uda.location_id }

inductive CmdFailure
  | Offline
  | AddressingFailure
  | TransportFailure
  deriving DecidableEq, Repr

/-- Oracle for the transport calls a single `hubLockCommand` may make. -/
structure CommandEnv where
  unlockResult : Bool
  g3LockResult : Bool
  deriving DecidableEq, Repr

structure CommandResult where
  success : Bool
  failure : Option CmdFailure
  state : HubState
  deriving DecidableEq, Repr

/-- `hubLockCommand(isLocking)`. -/
def hubLockCommand (cfg : HubCfg) (env : CommandEnv) (s : HubState) (isLocking : Bool) :
    CommandResult :=
  let unlockDuration := computeUnlockDuration isLocking cfg.lockDelayInterval
  if !cfg.isOnline then ⟨false, some .Offline, s⟩
  else
    match getCommandDeviceConfig cfg.uda with
    | none => ⟨false, some .AddressingFailure, s⟩
    | some device =>
      let s1 := if isLocking && s.handle.isSome then cancelLockResetTimer s else s
      let isDefaultUnlock := !isLocking && cfg.lockDelayInterval.isNone
      let commandIsG3Lock := isG3Reader cfg.uda && unlockDuration == some (.fin 0)
      let s2 := { s1 with
        calls := s1.calls ++
          [if commandIsG3Lock then .g3LockCall device else .unlockCall device unlockDuration] }
      let commandSucceeded := if commandIsG3Lock then env.g3LockResult else env.unlockResult
      if !commandSucceeded then ⟨false, some .TransportFailure, s2⟩
      else
        let targetState := if isLocking then LockState.Secured else LockState.Unsecured
        let s3 := if isG3Reader cfg.uda then { s2 with g3Override := some targetState } else s2
        let s4 := { s3 with hkLockState := targetState }
        let s5 := if isDefaultUnlock then scheduleDefaultLockReset cfg s4 device 0 none else s4
        ⟨true, none, s5⟩

/-! ### Constructor-time lock delay handling -/

/-- The `lockDelayInterval` stored by the `AccessHub` constructor, given the
configured `LockDelayInterval` feature value. -/
def constructorLockDelayInterval (isG3 : Bool) (configuredLockDelay : Option Int) : Option Int :=
  let stored := if isG3 then none else configuredLockDelay
  match stored with
  | some n => if n < 0 then none else some n
  | none => none

/-- Whether the constructor logs the reader-delay warning. -/
def constructorWarnsReaderDelay (isG3 : Bool) (configuredLockDelay : Option Int) : Bool :=
  isG3 && configuredLockDelay.isSome

/-! ### Event handling -/

/-- `isG3ReaderAccessGrantEvent(packet)`. -/
def isG3ReaderAccessGrantEvent (uda : Device) (event : String) (eventObjectId : String) : Bool :=
  if !(isG3Reader uda) then false
  else
    let ev := strToLower event
    if ev == "access.data.device.access_granted" then eventObjectId == uda.unique_id
    else if ev == "access.data.location.access_granted" then
      (truthyStr uda.location_id && (some eventObjectId == uda.location_id)) ||
        (truthyStr uda.doorUniqueId && (some eventObjectId == uda.doorUniqueId))
    else false

/-- `handleUnlockEvent()` (MQTT publish and logging are out-of-scope
side effects and not modelled). -/
def handleUnlockEvent (cfg : HubCfg) (s : HubState) : HubState :=
  let s1 := if isG3Reader cfg.uda then { s with g3Override := none } else s
  let s2 := { s1 with hkLockState := .Unsecured }
  if cfg.lockDelayInterval.isNone then
    match getCommandDeviceConfig cfg.uda with
    | some device => scheduleDefaultLockReset cfg s2 device 0 none
    | none => s2
  else s2

/-- The `access.data.device.access_granted` / `access.data.location.access_granted`
cases of `eventHandler`. -/
def handleAccessGrantedEvent (cfg : HubCfg) (s : HubState) (event : String)
    (eventObjectId : String) : HubState :=
  if isG3ReaderAccessGrantEvent cfg.uda event eventObjectId then handleUnlockEvent cfg s else s

/-- The operations of the hub that touch the auto-reset timer, as a step
relation over `HubState`. `cleanup()` is the `cleanupEvt` step. -/
inductive HubStep (cfg : HubCfg) : HubState → HubState → Prop
  | lockCmd (env : CommandEnv) (isLocking : Bool) (s : HubState) :
      HubStep cfg s (hubLockCommand cfg env s isLocking).state
  | timerFire (env : ResetEnv) (s : HubState) (t : PendingTimer) (ht : t ∈ s.pending) :
      HubStep cfg s (fireLockResetTimer cfg env s t)
  | accessGranted (s : HubState) (event eventObjectId : String) :
      HubStep cfg s (handleAccessGrantedEvent cfg s event eventObjectId)
  | unlockEvt (s : HubState) :
      HubStep cfg s (handleUnlockEvent cfg s)
  | cleanupEvt (s : HubState) :
      HubStep cfg s (cancelLockResetTimer s)

/-- Timer ownership invariant: at most one pending timer, and a pending
timer is always the one owned by `lockResetTimer`. -/
def TimerInv (s : HubState) : Prop :=
  match s.pending with
  | [] => True
  | [t] => s.handle = some t.id
  | _ :: _ :: _ => False

/-! ### Concrete fixtures and failure traces -/

/-- A standard (non-reader) hub snapshot advertising hub capability. -/
def stdHubDevice : Device :=
  ⟨some "UAH", "hub1", ["is_hub"], [], [], none, none⟩

/-- A G3 reader snapshot with a location id. -/
def g3ReaderDevice : Device :=
  ⟨some "UA-G3-Reader", "reader1", [], [], [], some "loc1", none⟩

/-- A G3 reader snapshot with neither a location id nor an associated door. -/
def g3ReaderDeviceNoLoc : Device :=
  ⟨some "UA-G3-Reader", "reader1", [], [], [], none, none⟩

def cfgStd : HubCfg := ⟨stdHubDevice, true, none⟩

def cfgG3 : HubCfg := ⟨g3ReaderDevice, true, none⟩

def initHubState : HubState := ⟨.Unknown, none, [], none, 0, [], 0, false⟩

/-- State after a successful default-duration unlock on the standard hub. -/
def sUnlockStd : HubState := (hubLockCommand cfgStd ⟨true, true⟩ initHubState false).state

/-- One scheduler step with the device offline: fire the pending auto-reset
timer if there is one, otherwise do nothing. -/
def offlineResetStep (cfg : HubCfg) (s : HubState) : HubState :=
  match s.pending with
  | [] => s
  | t :: _ => fireLockResetTimer cfg ⟨false, .fail⟩ s t

def runOfflineResets (cfg : HubCfg) : Nat → HubState → HubState
  | 0, s => s
  | n + 1, s => offlineResetStep cfg (runOfflineResets cfg n s)

lemma offlineResetStep_of_pending_nil {cfg : HubCfg} {s : HubState} (h : s.pending = []) :
    offlineResetStep cfg s = s := by
  unfold offlineResetStep
  rw [h]

lemma runOfflineResets_stable (m : Nat) :
    runOfflineResets cfgStd (6 + m) sUnlockStd = runOfflineResets cfgStd 6 sUnlockStd := by
  induction m with
  | zero => rfl
  | succ m ih =>
    show offlineResetStep cfgStd (runOfflineResets cfgStd (6 + m) sUnlockStd) = _
    rw [ih]
    exact offlineResetStep_of_pending_nil (by decide)

lemma resetRetrySpec (cfg : HubCfg) (env : ResetEnv) (s : HubState) (device : Device) (k : Nat)
    (hG3 : isG3Reader cfg.uda = false) (hfail : env.isOnline = false ∨ ¬ env.outcome = .ok)
    (hpend : s.pending = []) :
    (resetLockToDefaultState cfg env s device k).resetInvocations = s.resetInvocations + 1 ∧
    (if k + 1 < LOCK_RESET_MAX_ATTEMPTS then
      (resetLockToDefaultState cfg env s device k).pending.map (fun t => (t.attempt, t.delayMs)) =
        [(k + 1, LOCK_RESET_RETRY_DELAY)] ∧
      (resetLockToDefaultState cfg env s device k).retryExhausted = s.retryExhausted
    else
      (resetLockToDefaultState cfg env s device k).pending = [] ∧
      (resetLockToDefaultState cfg env s device k).retryExhausted = true) := by
  unfold resetLockToDefaultState scheduleDefaultLockReset cancelLockResetTimer
  rcases henv : env.isOnline with _ | _
  · simp only [hG3, henv, Bool.not_false, if_true, Bool.false_eq_true, if_false]
    by_cases hk : k + 1 < LOCK_RESET_MAX_ATTEMPTS
    · cases hh : s.handle <;> simp [hk, hpend]
    · simp [hk, hpend]
  · have hout : ¬ env.outcome = .ok := by
      rcases hfail with h | h
      · rw [henv] at h; cases h
      · exact h
    simp only [hG3, henv, Bool.not_true, Bool.false_eq_true, if_false]
    rcases houtc : env.outcome with _ | _ | _
    · exact absurd houtc hout
    · by_cases hk : k + 1 < LOCK_RESET_MAX_ATTEMPTS
      · cases hh : s.handle <;> simp [hk, hpend]
      · simp [hk, hpend]
    · by_cases hk : k + 1 < LOCK_RESET_MAX_ATTEMPTS
      · cases hh : s.handle <;> simp [hk, hpend]
      · simp [hk, hpend]

/-- Claim C1: for a default-duration unlock on a non-G3Reader device, a
failing auto-relock attempt `k` (offline, falsy command result, or thrown
error) schedules exactly one retry with the fixed 5000 ms delay iff
`k + 1 < 6`, and otherwise reports exhaustion and schedules nothing; along
the all-offline trace starting from a default unlock, at most 6 relock
attempts ever run, the 6th failure reports exhaustion with no pending
timer, and every later step leaves the state unchanged (no 7th attempt). -/
theorem claim_C1_reset_retry_bounded :
    (∀ (cfg : HubCfg) (env : ResetEnv) (s : HubState) (device : Device) (k : Nat),
      isG3Reader cfg.uda = false → (env.isOnline = false ∨ ¬ env.outcome = .ok) →
      s.pending = [] →
      (resetLockToDefaultState cfg env s device k).resetInvocations = s.resetInvocations + 1 ∧
      (if k + 1 < LOCK_RESET_MAX_ATTEMPTS then
        (resetLockToDefaultState cfg env s device k).pending.map
          (fun t => (t.attempt, t.delayMs)) = [(k + 1, LOCK_RESET_RETRY_DELAY)] ∧
        (resetLockToDefaultState cfg env s device k).retryExhausted = s.retryExhausted
      else
        (resetLockToDefaultState cfg env s device k).pending = [] ∧
        (resetLockToDefaultState cfg env s device k).retryExhausted = true)) ∧
    (∀ n : Nat,
      (runOfflineResets cfgStd n sUnlockStd).resetInvocations ≤ LOCK_RESET_MAX_ATTEMPTS) ∧
    ((runOfflineResets cfgStd 6 sUnlockStd).resetInvocations = 6 ∧
      (runOfflineResets cfgStd 6 sUnlockStd).retryExhausted = true ∧
      (runOfflineResets cfgStd 6 sUnlockStd).pending = []) ∧
    (∀ m : Nat, runOfflineResets cfgStd (6 + m) sUnlockStd = runOfflineResets cfgStd 6 sUnlockStd) := by
  refine ⟨resetRetrySpec, ?_, by refine ⟨by decide, by decide, by decide⟩, runOfflineResets_stable⟩
  intro n
  rcases le_or_lt n 6 with h | h
  · interval_cases n <;> decide
  · have hn : n = 6 + (n - 6) := by omega
    rw [hn, runOfflineResets_stable]
    decide

/-- Witness for claim C1 at attempt 0 of the offline standard hub. -/
theorem claim_C1_witness :
    (resetLockToDefaultState cfgStd ⟨false, .fail⟩ initHubState stdHubDevice 0).resetInvocations =
      initHubState.resetInvocations + 1 ∧
    (if 0 + 1 < LOCK_RESET_MAX_ATTEMPTS then
      (resetLockToDefaultState cfgStd ⟨false, .fail⟩ initHubState stdHubDevice 0).pending.map
        (fun t => (t.attempt, t.delayMs)) = [(0 + 1, LOCK_RESET_RETRY_DELAY)] ∧
      (resetLockToDefaultState cfgStd ⟨false, .fail⟩ initHubState stdHubDevice 0).retryExhausted =
        initHubState.retryExhausted
    else
      (resetLockToDefaultState cfgStd ⟨false, .fail⟩ initHubState stdHubDevice 0).pending = [] ∧
      (resetLockToDefaultState cfgStd ⟨false, .fail⟩ initHubState stdHubDevice 0).retryExhausted =
        true) :=
  claim_C1_reset_retry_bounded.1 cfgStd ⟨false, .fail⟩ initHubState stdHubDevice 0 (by decide)
    (Or.inl rfl) rfl

lemma cancelLockResetTimer_pending_nil (s : HubState) (hinv : TimerInv s) :
    (cancelLockResetTimer s).pending = [] := by
  unfold TimerInv at hinv
  unfold cancelLockResetTimer
  rcases hp : s.pending with _ | ⟨t, _ | ⟨u, rest⟩⟩
  · cases hh : s.handle <;> simp [hh, hp]
  · simp only [hp] at hinv
    rw [hinv]
    simp [hp]
  · simp only [hp] at hinv

lemma cancelLockResetTimer_preserves (s : HubState) :
    (cancelLockResetTimer s).g3Override = s.g3Override ∧
    (cancelLockResetTimer s).hkLockState = s.hkLockState ∧
    (cancelLockResetTimer s).calls = s.calls ∧
    (cancelLockResetTimer s).nextId = s.nextId := by
  unfold cancelLockResetTimer
  cases s.handle <;> simp

lemma scheduleDefaultLockReset_spec (cfg : HubCfg) (s : HubState) (device : Device)
    (attempt : Nat) (hinv : TimerInv s) :
    (scheduleDefaultLockReset cfg s device attempt none).g3Override = s.g3Override ∧
    (scheduleDefaultLockReset cfg s device attempt none).hkLockState = s.hkLockState ∧
    (scheduleDefaultLockReset cfg s device attempt none).calls = s.calls ∧
    (scheduleDefaultLockReset cfg s device attempt none).pending =
      [⟨(cancelLockResetTimer s).nextId, attempt,
        if isG3Reader cfg.uda then G3_READER_LOCK_RESET_DELAY else DEFAULT_LOCK_RESET_DELAY,
        device⟩] := by
  have hp := cancelLockResetTimer_pending_nil s hinv
  have hpres := cancelLockResetTimer_preserves s
  unfold scheduleDefaultLockReset
  simp [hp, hpres.1, hpres.2.1, hpres.2.2.1]

lemma fireG3Spec (cfg : HubCfg) (env : ResetEnv) (s : HubState) (t : PendingTimer)
    (hG3 : isG3Reader cfg.uda = true) :
    (fireLockResetTimer cfg env s t).g3Override = some .Secured ∧
    (fireLockResetTimer cfg env s t).hkLockState = .Secured ∧
    (fireLockResetTimer cfg env s t).calls = s.calls ∧
    (fireLockResetTimer cfg env s t).pending = s.pending.filter (fun u => u.id != t.id) := by
  unfold fireLockResetTimer resetLockToDefaultState
  simp [hG3]

lemma grantPredTrue (cfg : HubCfg) (eid : String) (hG3 : isG3Reader cfg.uda = true)
    (hloc : resolvedLocationId cfg.uda = some eid) (hne : eid ≠ "") :
    isG3ReaderAccessGrantEvent cfg.uda "access.data.location.access_granted" eid = true := by
  unfold isG3ReaderAccessGrantEvent
  have hdev : (strToLower "access.data.location.access_granted" ==
      "access.data.device.access_granted") = false := by decide
  have hlocv : (strToLower "access.data.location.access_granted" ==
      "access.data.location.access_granted") = true := by decide
  simp only [hG3, Bool.not_true, Bool.false_eq_true, if_false, hdev, hlocv, if_true]
  unfold resolvedLocationId at hloc
  rcases hl : cfg.uda.location_id with _ | l
  · rw [hl, Option.none_or] at hloc
    rw [hloc]
    simp [truthyStr, hne]
  · rw [hl] at hloc
    simp only [Option.or] at hloc
    injection hloc with hle
    subst hle
    simp [truthyStr, hne]

/-- Claim C2 counterexample: on a concrete G3 reader with location id
`"loc1"` and no delay interval, a location access-granted event targeting
`"loc1"` leaves the override cleared (`none`), not set to `Unsecured`, and
the scheduled reader reset delay is 2000 ms, not the claimed five seconds. -/
theorem claim_C2_counterexample :
    (handleAccessGrantedEvent cfgG3 initHubState "access.data.location.access_granted"
        "loc1").g3Override ≠ some .Unsecured ∧
    (handleAccessGrantedEvent cfgG3 initHubState "access.data.location.access_granted"
        "loc1").pending.map (fun t => t.delayMs) = [2000] ∧
    (2000 : Nat) ≠ 5000 := by
  decide

/-- Claim C2 (amended): when a G3 reader with no configured delay interval
receives `access.data.location.access_granted` targeting its resolved
location id, the event is treated as an unlock: the reader override is
cleared (set to `none`) and the tracked lock state set to `Unsecured`, a
reset is scheduled after the 2000 ms reader reset delay with no transport
call, and firing that reset sets the override and tracked state to
`Secured`, again without any transport call. -/
theorem claim_C2_amended (cfg : HubCfg) (s : HubState) (eid : String)
    (hG3 : isG3Reader cfg.uda = true) (hdelay : cfg.lockDelayInterval = none)
    (hloc : resolvedLocationId cfg.uda = some eid) (hne : eid ≠ "") (hinv : TimerInv s) :
    (handleAccessGrantedEvent cfg s "access.data.location.access_granted" eid).g3Override = none ∧
    (handleAccessGrantedEvent cfg s "access.data.location.access_granted" eid).hkLockState =
      .Unsecured ∧
    (handleAccessGrantedEvent cfg s "access.data.location.access_granted" eid).calls = s.calls ∧
    (handleAccessGrantedEvent cfg s "access.data.location.access_granted" eid).pending.map
      (fun t => (t.attempt, t.delayMs)) = [(0, G3_READER_LOCK_RESET_DELAY)] ∧
    (∀ (env : ResetEnv) (t : PendingTimer),
      t ∈ (handleAccessGrantedEvent cfg s "access.data.location.access_granted" eid).pending →
      (fireLockResetTimer cfg env
          (handleAccessGrantedEvent cfg s "access.data.location.access_granted" eid) t).g3Override =
        some .Secured ∧
      (fireLockResetTimer cfg env
          (handleAccessGrantedEvent cfg s "access.data.location.access_granted" eid) t).hkLockState =
        .Secured ∧
      (fireLockResetTimer cfg env
          (handleAccessGrantedEvent cfg s "access.data.location.access_granted" eid) t).calls =
        s.calls ∧
      (fireLockResetTimer cfg env
          (handleAccessGrantedEvent cfg s "access.data.location.access_granted" eid) t).pending =
        []) := by
  have hpred := grantPredTrue cfg eid hG3 hloc hne
  have hsome : (getCommandDeviceConfig cfg.uda).isSome = true := by
    have htr : truthyStr (resolvedLocationId cfg.uda) = true := by
      rw [hloc]
      simp [truthyStr, hne]
    unfold getCommandDeviceConfig
    simp only [hG3, htr]
    split
    · rfl
    · simp
  obtain ⟨device, hdev⟩ := Option.isSome_iff_exists.mp hsome
  set s2 : HubState := { s with g3Override := none, hkLockState := .Unsecured } with hs2
  have hinv2 : TimerInv s2 := hinv
  have hred : handleAccessGrantedEvent cfg s "access.data.location.access_granted" eid =
      scheduleDefaultLockReset cfg s2 device 0 none := by
    unfold handleAccessGrantedEvent handleUnlockEvent
    rw [hpred]
    simp [hG3, hdelay, hdev, hs2]
  have hsched := scheduleDefaultLockReset_spec cfg s2 device 0 hinv2
  rw [hred] at *
  rw [hsched.2.2.2]
  refine ⟨by rw [hsched.1], by rw [hsched.2.1], by rw [hsched.2.2.1], by simp [hG3], ?_⟩
  intro env t ht
  have hfire := fireG3Spec cfg env (scheduleDefaultLockReset cfg s2 device 0 none) t hG3
  rw [List.mem_singleton] at ht
  refine ⟨hfire.1, hfire.2.1, by rw [hfire.2.2.1, hsched.2.2.1], ?_⟩
  rw [hfire.2.2.2, hsched.2.2.2, ht]
  simp

/-- Witness for claim C2 at the concrete G3 reader fixture. -/
theorem claim_C2_witness :
    (handleAccessGrantedEvent cfgG3 initHubState "access.data.location.access_granted"
        "loc1").g3Override = none ∧
    (handleAccessGrantedEvent cfgG3 initHubState "access.data.location.access_granted"
        "loc1").hkLockState = .Unsecured :=
  ⟨(claim_C2_amended cfgG3 initHubState "loc1" (by decide) rfl (by decide) (by decide) trivial).1,
    (claim_C2_amended cfgG3 initHubState "loc1" (by decide) rfl (by decide) (by decide)
      trivial).2.1⟩

/-- Claim C3: a G3 reader with no location id and no associated door fails
every lock/unlock command immediately with the addressing-failure
condition, returning `false` and leaving the entire mutable state —
tracked lock state, reader override, pending auto-reset timer, and the
transport log — untouched. -/
theorem claim_C3_addressing_failure (cfg : HubCfg) (env : CommandEnv) (s : HubState)
    (isLocking : Bool) (hG3 : isG3Reader cfg.uda = true) (hloc : cfg.uda.location_id = none)
    (hdoor : cfg.uda.doorUniqueId = none)
    (hcap : cfg.uda.capabilities.contains "is_hub" = false) (honline : cfg.isOnline = true) :
    hubLockCommand cfg env s isLocking = ⟨false, some .AddressingFailure, s⟩ := by
  have hcap' : "is_hub" ∉ cfg.uda.capabilities := by simpa using hcap
  have hdev : getCommandDeviceConfig cfg.uda = none := by
    unfold getCommandDeviceConfig resolvedLocationId
    rw [hloc, hdoor]
    simp [hcap', hG3, truthyStr]
  unfold hubLockCommand
  rw [honline, hdev]
  simp

/-- Witness for claim C3 at the concrete locationless G3 reader, for both
the unlock and the lock direction. -/
theorem claim_C3_witness :
    hubLockCommand ⟨g3ReaderDeviceNoLoc, true, none⟩ ⟨true, true⟩ initHubState false =
      ⟨false, some .AddressingFailure, initHubState⟩ ∧
    hubLockCommand ⟨g3ReaderDeviceNoLoc, true, none⟩ ⟨true, true⟩ initHubState true =
      ⟨false, some .AddressingFailure, initHubState⟩ :=
  ⟨claim_C3_addressing_failure ⟨g3ReaderDeviceNoLoc, true, none⟩ ⟨true, true⟩ initHubState false
      (by decide) rfl rfl (by decide) rfl,
    claim_C3_addressing_failure ⟨g3ReaderDeviceNoLoc, true, none⟩ ⟨true, true⟩ initHubState true
      (by decide) rfl rfl (by decide) rfl⟩

lemma scheduleDefaultLockReset_calls (cfg : HubCfg) (s : HubState) (device : Device)
    (attempt : Nat) (delay : Option Nat) :
    (scheduleDefaultLockReset cfg s device attempt delay).calls = s.calls := by
  unfold scheduleDefaultLockReset
  exact (cancelLockResetTimer_preserves s).2.2.1

lemma ite_cancel_calls (s : HubState) (c : Prop) [Decidable c] :
    (if c then cancelLockResetTimer s else s).calls = s.calls := by
  split
  · exact (cancelLockResetTimer_preserves s).2.2.1
  · rfl

lemma hubLockCommand_calls_spec (cfg : HubCfg) (env : CommandEnv) (s : HubState)
    (isLocking : Bool) (device : Device) (honline : cfg.isOnline = true)
    (hdev : getCommandDeviceConfig cfg.uda = some device)
    (hG3 : isG3Reader cfg.uda = false) (hcalls : s.calls = []) :
    (hubLockCommand cfg env s isLocking).state.calls =
      [.unlockCall device (computeUnlockDuration isLocking cfg.lockDelayInterval)] := by
  unfold hubLockCommand
  rw [honline, hdev]
  simp only [hG3, Bool.false_and, Bool.false_eq_true, if_false]
  by_cases hok : env.unlockResult = true
  · simp [hok, scheduleDefaultLockReset_calls, ite_cancel_calls, hcalls]
    split <;> simp [scheduleDefaultLockReset_calls, ite_cancel_calls, hcalls]
  · simp only [Bool.not_eq_true] at hok
    simp [hok, ite_cancel_calls, hcalls]

lemma hubLockCommand_g3_unlock_calls (cfg : HubCfg) (env : CommandEnv) (s : HubState)
    (device : Device) (honline : cfg.isOnline = true)
    (hdev : getCommandDeviceConfig cfg.uda = some device) (hG3 : isG3Reader cfg.uda = true)
    (hdelay : cfg.lockDelayInterval = none) (hcalls : s.calls = []) :
    (hubLockCommand cfg env s false).state.calls = [.unlockCall device none] := by
  unfold hubLockCommand
  rw [honline, hdev]
  simp only [hdelay, computeUnlockDuration]
  by_cases hok : env.unlockResult = true
  · simp [hok, hG3, scheduleDefaultLockReset_calls, ite_cancel_calls, hcalls]
  · simp only [Bool.not_eq_true] at hok
    simp [hok, hG3, ite_cancel_calls, hcalls]

/-- Claim C7: the unlock-duration argument sent by `hubLockCommand` is `0`
when locking; when unlocking it is `undefined` (`none`) with no configured
interval, `Infinity` with interval `0`, and the literal minute count for a
positive interval. A G3 reader discards any configured interval at
construction (so its unlocks send `undefined`) and the constructor warns
exactly when an interval was configured for a reader. The last two
conjuncts tie the computed duration to the transport call actually made. -/
theorem claim_C7_unlock_duration :
    (∀ interval : Option Int, computeUnlockDuration true interval = some (.fin 0)) ∧
    computeUnlockDuration false none = none ∧
    computeUnlockDuration false (some 0) = some .inf ∧
    (∀ n : Int, 0 < n → computeUnlockDuration false (some n) = some (.fin n)) ∧
    (∀ c : Option Int, constructorLockDelayInterval true c = none) ∧
    (∀ c : Option Int, constructorWarnsReaderDelay true c = c.isSome) ∧
    (∀ (cfg : HubCfg) (env : CommandEnv) (s : HubState) (isLocking : Bool) (device : Device),
      cfg.isOnline = true → getCommandDeviceConfig cfg.uda = some device →
      isG3Reader cfg.uda = false → s.calls = [] →
      (hubLockCommand cfg env s isLocking).state.calls =
        [.unlockCall device (computeUnlockDuration isLocking cfg.lockDelayInterval)]) ∧
    (∀ (cfg : HubCfg) (env : CommandEnv) (s : HubState) (device : Device),
      cfg.isOnline = true → getCommandDeviceConfig cfg.uda = some device →
      isG3Reader cfg.uda = true → cfg.lockDelayInterval = none → s.calls = [] →
      (hubLockCommand cfg env s false).state.calls = [.unlockCall device none]) := by
  refine ⟨fun interval => rfl, rfl, rfl, ?_, fun c => rfl, fun c => ?_, ?_, ?_⟩
  · intro n hn
    have hne : ¬(n = 0) := by omega
    simp [computeUnlockDuration, hne]
  · simp [constructorWarnsReaderDelay]
  · intro cfg env s isLocking device honline hdev hG3 hcalls
    exact hubLockCommand_calls_spec cfg env s isLocking device honline hdev hG3 hcalls
  · intro cfg env s device honline hdev hG3 hdelay hcalls
    exact hubLockCommand_g3_unlock_calls cfg env s device honline hdev hG3 hdelay hcalls

/-- Witness for claim C7: a positive interval of 3 minutes is sent
literally, and the concrete standard hub's default unlock issues the
transport call with duration `undefined`. -/
theorem claim_C7_witness :
    computeUnlockDuration false (some 3) = some (.fin 3) ∧
    (hubLockCommand cfgStd ⟨true, true⟩ initHubState false).state.calls =
      [.unlockCall stdHubDevice none] :=
  ⟨claim_C7_unlock_duration.2.2.2.1 3 (by decide),
    claim_C7_unlock_duration.2.2.2.2.2.2.1 cfgStd ⟨true, true⟩ initHubState false stdHubDevice rfl
      (by decide) (by decide) rfl⟩

/-- Claim C9 counterexample: the device type `"UA G3"` normalizes to
`"UAG3"`, which starts with neither recognized G3-reader class name, yet
the code classifies it as a G3 reader via the exact-match list — so
prefix-matching alone does not characterize the classification. -/
theorem claim_C9_counterexample :
    classifyVariant (some "UA G3") = .G3Reader ∧
    (G3_READER_CLASS_PREFIXES.any
      (fun p => strStartsWith (normalizeDeviceClass "UA G3") p)) = false := by
  decide

lemma g3ClassIff (s : String) :
    isG3ReaderDeviceClass s = true ↔
      (s = "UAG3" ∨ strStartsWith s "UAG3READER" = true ∨ strStartsWith s "UAG3B" = true) := by
  unfold isG3ReaderDeviceClass G3_READER_CLASS_PREFIXES G3_READER_CLASS_EXACT_MATCHES
  simp [List.contains]

/-- Claim C9 (amended): variant classification is total and deterministic;
a device is `G3Reader` exactly when its normalized type starts with one of
the two recognized class name beginnings or equals the exact class name
`"UAG3"`; it is `MiniOrUltra` exactly when the raw type equals one of the
two literal model names; every other input is `Standard`. -/
theorem claim_C9_variant_classification (dt : Option String) :
    (classifyVariant dt = .G3Reader ↔
      (normalizeDeviceClass (dt.getD "") = "UAG3" ∨
        strStartsWith (normalizeDeviceClass (dt.getD "")) "UAG3READER" = true ∨
        strStartsWith (normalizeDeviceClass (dt.getD "")) "UAG3B" = true)) ∧
    (classifyVariant dt = .MiniOrUltra ↔
      (dt = some "UA-Hub-Door-Mini" ∨ dt = some "UA-ULTRA")) ∧
    (classifyVariant dt = .G3Reader ∨ classifyVariant dt = .MiniOrUltra ∨
      classifyVariant dt = .Standard) := by
  refine ⟨?_, ?_, ?_⟩
  · unfold classifyVariant
    by_cases hg : isG3ReaderDeviceClass (normalizeDeviceClass (dt.getD "")) = true
    · rw [if_pos hg]
      exact iff_of_true rfl ((g3ClassIff _).mp hg)
    · rw [if_neg hg]
      constructor
      · intro h
        split at h <;> cases h
      · intro h
        exact absurd ((g3ClassIff _).mpr h) hg
  · unfold classifyVariant
    by_cases hg : isG3ReaderDeviceClass (normalizeDeviceClass (dt.getD "")) = true
    · rw [if_pos hg]
      constructor
      · intro h
        cases h
      · rintro (rfl | rfl) <;> revert hg <;> decide
    · rw [if_neg hg]
      by_cases hm : ((dt.getD "") == "UA-Hub-Door-Mini" || (dt.getD "") == "UA-ULTRA") = true
      · rw [if_pos hm]
        refine iff_of_true rfl ?_
        rcases dt with _ | s
        · exact absurd hm (by decide)
        · simp only [Option.getD] at hm
          rcases Bool.or_eq_true_iff.mp hm with h | h
          · exact Or.inl (by rw [eq_of_beq h])
          · exact Or.inr (by rw [eq_of_beq h])
      · rw [if_neg hm]
        constructor
        · intro h
          cases h
        · rintro (rfl | rfl) <;> exact absurd (by decide) hm
  · unfold classifyVariant
    split_ifs <;> simp

/-- Claim C10: a configured lock-delay interval strictly below zero is
reset to `undefined` at construction, so every subsequent command behaves
exactly as with no configured interval: the unlock sends duration
`undefined` and schedules the default auto-relock, and the negative value
never reaches the transport. -/
theorem claim_C10_negative_interval :
    (∀ (isReader : Bool) (n : Int), n < 0 →
      constructorLockDelayInterval isReader (some n) = none) ∧
    (∀ (n : Int), n < 0 →
      ∀ (uda : Device) (isOnline : Bool) (env : CommandEnv) (s : HubState) (isLocking : Bool),
      hubLockCommand ⟨uda, isOnline, constructorLockDelayInterval false (some n)⟩ env s isLocking =
        hubLockCommand ⟨uda, isOnline, none⟩ env s isLocking) ∧
    ((hubLockCommand ⟨stdHubDevice, true, constructorLockDelayInterval false (some (-3))⟩
        ⟨true, true⟩ initHubState false).state.pending.map (fun t => (t.attempt, t.delayMs)) =
      [(0, DEFAULT_LOCK_RESET_DELAY)] ∧
    (hubLockCommand ⟨stdHubDevice, true, constructorLockDelayInterval false (some (-3))⟩
        ⟨true, true⟩ initHubState false).state.calls = [.unlockCall stdHubDevice none]) := by
  refine ⟨?_, ?_, by decide⟩
  · intro isReader n hn
    cases isReader <;> simp [constructorLockDelayInterval, hn]
  · intro n hn uda isOnline env s isLocking
    have h : constructorLockDelayInterval false (some n) = none := by
      unfold constructorLockDelayInterval
      simp [hn]
    rw [h]

/-- Witness for claim C10 at interval `-3`. -/
theorem claim_C10_witness :
    constructorLockDelayInterval false (some (-3)) = none ∧
    hubLockCommand ⟨stdHubDevice, true, constructorLockDelayInterval false (some (-3))⟩
        ⟨true, true⟩ initHubState false =
      hubLockCommand ⟨stdHubDevice, true, none⟩ ⟨true, true⟩ initHubState false :=
  ⟨claim_C10_negative_interval.1 false (-3) (by decide),
    claim_C10_negative_interval.2.1 (-3) (by decide) stdHubDevice true ⟨true, true⟩ initHubState
      false⟩

lemma active_inactive_disjoint (w : String) (hw : w ∈ ACTIVE_LOCK_WORDS) :
    w ∉ INACTIVE_LOCK_WORDS := by
  fin_cases hw <;> decide

lemma classify_g3_iff (uda : Device) :
    (classifyVariant uda.device_type = .G3Reader) ↔ isG3Reader uda = true := by
  unfold classifyVariant isG3Reader deviceClassOf
  by_cases hg : isG3ReaderDeviceClass (normalizeDeviceClass (uda.device_type.getD "")) = true
  · rw [if_pos hg]
    exact iff_of_true rfl hg
  · rw [if_neg hg]
    constructor
    · intro h
      split at h <;> cases h
    · intro h
      exact absurd h hg

lemma spec_key_eq (uda : Device) :
    (if classifyVariant uda.device_type = .MiniOrUltra then "output_d1_lock_relay"
      else "input_state_rly-lock_dry") = lockRelayKey uda := by
  unfold lockRelayKey
  by_cases hm : (uda.device_type == some "UA-Hub-Door-Mini" ||
      uda.device_type == some "UA-ULTRA") = true
  · rw [if_pos hm]
    rcases Bool.or_eq_true_iff.mp hm with h | h
    · rw [if_pos (by rw [eq_of_beq h]; decide)]
    · rw [if_pos (by rw [eq_of_beq h]; decide)]
  · rw [if_neg hm]
    rw [if_neg ?_]
    intro hc
    apply hm
    unfold classifyVariant at hc
    split at hc
    · cases hc
    · split at hc
      · rename_i hmm
        rcases Bool.or_eq_true_iff.mp hmm with h | h
        · rcases hd : uda.device_type with _ | s
          · rw [hd] at h
            exact absurd h (by decide)
          · rw [hd] at h
            simp only [Option.getD] at h
            apply Bool.or_eq_true_iff.mpr
            exact Or.inl (by rw [eq_of_beq h]; rfl)
        · rcases hd : uda.device_type with _ | s
          · rw [hd] at h
            exact absurd h (by decide)
          · rw [hd] at h
            simp only [Option.getD] at h
            apply Bool.or_eq_true_iff.mpr
            exact Or.inr (by rw [eq_of_beq h]; rfl)
      · cases hc

/-- Claim C4: for every device snapshot the telemetry-derived lock state of
the `hubLockState` getter coincides with the spec's normalizer (variant-
selected key, absent-key defaults, boolean/number/word-set value mapping
with the G3 secured fallback), and string normalization is invariant under
case changes of the value — both at the flag level and at the whole-device
level. -/
theorem claim_C4_lock_normalizer :
    (∀ uda : Device, hubLockStateDerived uda = specLockStateNormalizer uda) ∧
    (∀ s t : String, strToLower s = strToLower t →
      lockValueFlags (.str s) = lockValueFlags (.str t)) ∧
    (∀ (uda : Device) (s t : String), strToLower s = strToLower t →
      hubLockStateDerived { uda with configs := [⟨lockRelayKey uda, .str s⟩] } =
        hubLockStateDerived { uda with configs := [⟨lockRelayKey uda, .str t⟩] }) := by
  have hflagsInv : ∀ s t : String, strToLower s = strToLower t →
      lockValueFlags (.str s) = lockValueFlags (.str t) := by
    intro s t h
    simp [lockValueFlags, h]
  refine ⟨?_, hflagsInv, ?_⟩
  · intro uda
    simp only [hubLockStateDerived, specLockStateNormalizer]
    rw [spec_key_eq]
    rcases hv : findConfigValue uda (lockRelayKey uda) with _ | v
    · simp only [classify_g3_iff]
    · rcases v with b | n | sv | _
      · cases b <;> simp [lockValueFlags]
      · by_cases h1 : n = 1
        · subst h1
          simp [lockValueFlags]
        · by_cases h0 : n = 0
          · subst h0
            simp [lockValueFlags]
          · simp [lockValueFlags, h1, h0, classify_g3_iff]
      · by_cases ha : strToLower sv ∈ ACTIVE_LOCK_WORDS <;>
          by_cases hi : strToLower sv ∈ INACTIVE_LOCK_WORDS
        · exact (active_inactive_disjoint _ ha hi).elim
        · simp [lockValueFlags, ha, hi]
        · simp [lockValueFlags, ha, hi]
        · simp [lockValueFlags, ha, hi, classify_g3_iff]
      · simp only [classify_g3_iff]
  · intro uda s t h
    have hgen : ∀ w : String,
        hubLockStateDerived { uda with configs := [⟨lockRelayKey uda, .str w⟩] } =
          (if (lockValueFlags (.str w)).2 then LockState.Secured
            else if (lockValueFlags (.str w)).1 then .Unsecured
            else if isG3Reader uda then .Secured else .Unknown) := by
      intro w
      have hf : findConfigValue { uda with configs := [⟨lockRelayKey uda, .str w⟩] }
          (lockRelayKey { uda with configs := [⟨lockRelayKey uda, .str w⟩] }) =
            some (.str w) := by
        simp [findConfigValue, lockRelayKey]
      simp only [hubLockStateDerived, hf]
      rfl
    rw [hgen s, hgen t, hflagsInv s t h]

/-- Witness for claim C4: the values `"ON"` and `"on"` normalize alike on
the standard hub. -/
theorem claim_C4_witness :
    hubLockStateDerived { stdHubDevice with configs := [⟨lockRelayKey stdHubDevice, .str "ON"⟩] } =
      hubLockStateDerived
        { stdHubDevice with configs := [⟨lockRelayKey stdHubDevice, .str "on"⟩] } :=
  claim_C4_lock_normalizer.2.2 stdHubDevice "ON" "on" (by decide)

/-- Claim C8: every dry-contact channel always has a variant-selected state
key; an unwired channel reports the fixed `Detected` default; a wired
channel reports `Detected` exactly when its lower-cased string value is in
the active word set and `NotDetected` for every other value (inactive-set
members and unrecognized values alike — the codomain `ContactState` has no
`Unknown` at all); and the REL channel is always wired on MiniOrUltra
variants. -/
theorem claim_C8_dry_contact :
    (∀ (uda : Device) (t : DryContactSensorType), (getDryContactStateKey uda t).isSome = true) ∧
    (∀ (uda : Device) (t : DryContactSensorType) (key : String),
      getDryContactStateKey uda t = some key →
      getDryContactState uda t =
        (if isDryContactWired uda t then
          (if dryContactNormalizedValue uda key ∈ DRY_ACTIVE_WORDS then ContactState.Detected
            else .NotDetected)
        else .Detected)) ∧
    (∀ uda : Device, isMiniVariant uda = true → isDryContactWired uda .rel = true) := by
  refine ⟨?_, ?_, ?_⟩
  · intro uda t
    cases t <;> simp only [getDryContactStateKey, DRY_CONTACT_SENSOR_DEFINITIONS] <;>
      split <;> rfl
  · intro uda t key hkey
    unfold getDryContactState
    by_cases hw : isDryContactWired uda t
    · rw [hkey]
      simp only [hw, Bool.not_true, Bool.false_eq_true, if_false, if_true]
      by_cases ha : dryContactNormalizedValue uda key ∈ DRY_ACTIVE_WORDS
      · simp [ha]
      · by_cases hi : dryContactNormalizedValue uda key ∈ DRY_INACTIVE_WORDS <;> simp [ha, hi]
    · simp only [Bool.not_eq_true] at hw
      simp [hw]
  · intro uda hm
    unfold isDryContactWired
    simp [hm]

/-- Witness for claim C8: the REL channel on a concrete `UA-ULTRA` device
is wired without any wiring telemetry, and on the standard hub (unwired REL)
the state equation evaluates to the `Detected` default. -/
theorem claim_C8_witness :
    isDryContactWired ⟨some "UA-ULTRA", "ultra1", [], [], [], none, none⟩ .rel = true ∧
    getDryContactState stdHubDevice .rel =
      (if isDryContactWired stdHubDevice .rel then
        (if dryContactNormalizedValue stdHubDevice "input_state_rel" ∈ DRY_ACTIVE_WORDS then
          ContactState.Detected
        else .NotDetected)
      else .Detected) :=
  ⟨claim_C8_dry_contact.2.2 ⟨some "UA-ULTRA", "ultra1", [], [], [], none, none⟩ (by decide),
    claim_C8_dry_contact.2.1 stdHubDevice .rel "input_state_rel" (by decide)⟩

/-- Two extensions that both keyword-match the `pin` access method but
carry different boolean target configs and identities. -/
def extPinA : Extension :=
  ⟨some "id1", none, some "pin entry", none, none, none, none, [⟨"pinKeyA", .bool true⟩]⟩

def extPinB : Extension :=
  ⟨some "id2", none, some "pin entry", none, none, none, none, [⟨"pinKeyB", .bool false⟩]⟩

/-- Claim C6 counterexample: permuting an extension list with two `pin`
matching extensions changes which definition survives (first match wins),
so discovery is not invariant under reordering: the two permuted lists
yield definitions with different `configKey`, `state`, and `extensionKey`. -/
theorem claim_C6_counterexample :
    [extPinA, extPinB].Perm [extPinB, extPinA] ∧
    (discoverAccessMethodDefinitions [extPinA, extPinB]).map (fun d => d.configKey) =
      ["pinKeyA"] ∧
    (discoverAccessMethodDefinitions [extPinB, extPinA]).map (fun d => d.configKey) =
      ["pinKeyB"] ∧
    discoverAccessMethodDefinitions [extPinA, extPinB] ≠
      discoverAccessMethodDefinitions [extPinB, extPinA] := by
  decide

lemma yields_type_eq {e : Extension} {t : AccessMethodType} (h : extensionYields e t = true) :
    getAccessMethodTypeFromExtension e = some t := by
  unfold extensionYields at h
  rcases Bool.and_eq_true_iff.mp h with ⟨h1, _⟩
  exact eq_of_beq h1

lemma discoverAux_mem_iff (l : List Extension) :
    ∀ (seen : List AccessMethodType) (t : AccessMethodType),
      (t ∈ (discoverAccessMethodDefinitionsAux seen l).map (fun d => d.methodType)) ↔
        (t ∉ seen ∧ ∃ e ∈ l, extensionYields e t = true) := by
  induction l with
  | nil =>
    intro seen t
    simp [discoverAccessMethodDefinitionsAux]
  | cons e rest ih =>
    intro seen t
    unfold discoverAccessMethodDefinitionsAux
    rcases hty : getAccessMethodTypeFromExtension e with _ | mt
    · rw [ih seen t]
      constructor
      · rintro ⟨hs, e', he', hy⟩
        exact ⟨hs, e', List.mem_cons_of_mem e he', hy⟩
      · rintro ⟨hs, e', he', hy⟩
        rcases List.mem_cons.mp he' with rfl | he''
        · rw [yields_type_eq hy] at hty
          cases hty
        · exact ⟨hs, e', he'', hy⟩
    · dsimp only
      by_cases hseen : mt ∈ seen
      · rw [if_pos hseen, ih seen t]
        constructor
        · rintro ⟨hs, e', he', hy⟩
          exact ⟨hs, e', List.mem_cons_of_mem e he', hy⟩
        · rintro ⟨hs, e', he', hy⟩
          rcases List.mem_cons.mp he' with rfl | he''
          · rw [yields_type_eq hy] at hty
            injection hty with hmt
            exact absurd hseen (hmt ▸ hs)
          · exact ⟨hs, e', he'', hy⟩
      · rw [if_neg hseen]
        rcases hbc : findBoolTargetConfig e with _ | c
        · rw [ih seen t]
          constructor
          · rintro ⟨hs, e', he', hy⟩
            exact ⟨hs, e', List.mem_cons_of_mem e he', hy⟩
          · rintro ⟨hs, e', he', hy⟩
            rcases List.mem_cons.mp he' with rfl | he''
            · unfold extensionYields at hy
              rcases Bool.and_eq_true_iff.mp hy with ⟨_, h2⟩
              rw [hbc] at h2
              cases h2
            · exact ⟨hs, e', he'', hy⟩
        · simp only [List.map_cons, List.mem_cons]
          rw [ih (mt :: seen) t]
          constructor
          · rintro (rfl | ⟨hs, e', he', hy⟩)
            · refine ⟨hseen, e, Or.inl rfl, ?_⟩
              unfold extensionYields
              rw [hty, hbc]
              simp
            · exact ⟨fun hc => hs (List.mem_cons_of_mem mt hc), e', Or.inr he', hy⟩
          · rintro ⟨hs, e', he', hy⟩
            rcases he' with rfl | he''
            · rw [yields_type_eq hy] at hty
              injection hty with hmt
              exact Or.inl hmt
            · by_cases hteq : t = mt
              · exact Or.inl hteq
              · refine Or.inr ⟨?_, e', he'', hy⟩
                intro hc
                rcases List.mem_cons.mp hc with h | h
                · exact hteq h
                · exact hs h

lemma discoverAux_types_nodup (l : List Extension) :
    ∀ seen : List AccessMethodType,
      (∀ d ∈ discoverAccessMethodDefinitionsAux seen l, d.methodType ∉ seen) ∧
      ((discoverAccessMethodDefinitionsAux seen l).map (fun d => d.methodType)).Nodup := by
  induction l with
  | nil =>
    intro seen
    simp [discoverAccessMethodDefinitionsAux]
  | cons e rest ih =>
    intro seen
    unfold discoverAccessMethodDefinitionsAux
    rcases hty : getAccessMethodTypeFromExtension e with _ | mt
    · exact ih seen
    · dsimp only
      by_cases hseen : mt ∈ seen
      · rw [if_pos hseen]
        exact ih seen
      · rw [if_neg hseen]
        rcases hbc : findBoolTargetConfig e with _ | c
        · exact ih seen
        · constructor
          · intro d hd
            rcases List.mem_cons.mp hd with rfl | hd'
            · exact hseen
            · intro hc
              exact (ih (mt :: seen)).1 d hd' (List.mem_cons_of_mem mt hc)
          · rw [List.map_cons]
            refine List.nodup_cons.mpr ⟨?_, (ih (mt :: seen)).2⟩
            intro hc
            rw [discoverAux_mem_iff rest (mt :: seen) mt] at hc
            exact hc.1 (List.mem_cons_self mt seen)

/-- Claim C6 (amended): under permutation of the extension list, discovery
yields definitions for the same set of method types, with at most one
definition per method type in either pass; the surviving definition's
`configKey`, `state` and `extensionKey` come from the first matching
extension in list order and may therefore differ between permutations. -/
theorem claim_C6_discovery_stability (l1 l2 : List Extension) (hperm : l1.Perm l2) :
    (∀ t : AccessMethodType,
      t ∈ (discoverAccessMethodDefinitions l1).map (fun d => d.methodType) ↔
        t ∈ (discoverAccessMethodDefinitions l2).map (fun d => d.methodType)) ∧
    ((discoverAccessMethodDefinitions l1).map (fun d => d.methodType)).Nodup ∧
    ((discoverAccessMethodDefinitions l2).map (fun d => d.methodType)).Nodup := by
  refine ⟨?_, (discoverAux_types_nodup l1 []).2, (discoverAux_types_nodup l2 []).2⟩
  intro t
  unfold discoverAccessMethodDefinitions
  rw [discoverAux_mem_iff l1 [] t, discoverAux_mem_iff l2 [] t]
  simp only [hperm.mem_iff]

/-- Witness for claim C6 on the concrete permuted pin-extension lists. -/
theorem claim_C6_witness :
    AccessMethodType.pin ∈
        (discoverAccessMethodDefinitions [extPinA, extPinB]).map (fun d => d.methodType) ↔
      AccessMethodType.pin ∈
        (discoverAccessMethodDefinitions [extPinB, extPinA]).map (fun d => d.methodType) :=
  (claim_C6_discovery_stability [extPinA, extPinB] [extPinB, extPinA] (by decide)).1 .pin

lemma TimerInv_of_pending_nil (s : HubState) (h : s.pending = []) : TimerInv s := by
  unfold TimerInv
  rw [h]
  trivial

lemma TimerInv_cancel (s : HubState) (hinv : TimerInv s) :
    TimerInv (cancelLockResetTimer s) :=
  TimerInv_of_pending_nil _ (cancelLockResetTimer_pending_nil s hinv)

lemma TimerInv_schedule (cfg : HubCfg) (s : HubState) (device : Device) (attempt : Nat)
    (delay : Option Nat) (hinv : TimerInv s) :
    TimerInv (scheduleDefaultLockReset cfg s device attempt delay) := by
  have hp := cancelLockResetTimer_pending_nil s hinv
  unfold scheduleDefaultLockReset TimerInv
  simp [hp]

lemma TimerInv_reset (cfg : HubCfg) (env : ResetEnv) (s : HubState) (device : Device) (k : Nat)
    (h : s.pending = []) : TimerInv (resetLockToDefaultState cfg env s device k) := by
  have h1 : TimerInv { s with resetInvocations := s.resetInvocations + 1 } :=
    TimerInv_of_pending_nil _ h
  unfold resetLockToDefaultState
  split
  · exact TimerInv_of_pending_nil _ h
  · split
    · split
      · exact TimerInv_schedule _ _ _ _ _ h1
      · exact TimerInv_of_pending_nil _ h
    · split
      · exact TimerInv_of_pending_nil _ h
      · split
        · exact TimerInv_schedule _ _ _ _ _ (TimerInv_of_pending_nil _ h)
        · exact TimerInv_of_pending_nil _ h

lemma mem_inv_singleton (s : HubState) (t : PendingTimer) (hinv : TimerInv s)
    (ht : t ∈ s.pending) : s.pending = [t] := by
  unfold TimerInv at hinv
  rcases hp : s.pending with _ | ⟨u, _ | ⟨v, rest⟩⟩
  · rw [hp] at ht
    cases ht
  · rw [hp] at ht
    rcases List.mem_singleton.mp ht with rfl
    rfl
  · rw [hp] at hinv
    exact hinv.elim

lemma TimerInv_fire (cfg : HubCfg) (env : ResetEnv) (s : HubState) (t : PendingTimer)
    (hinv : TimerInv s) (ht : t ∈ s.pending) :
    TimerInv (fireLockResetTimer cfg env s t) := by
  have hp : s.pending.filter (fun u => u.id != t.id) = [] := by
    rw [mem_inv_singleton s t hinv ht]
    simp
  unfold fireLockResetTimer
  exact TimerInv_reset _ _ _ _ _ hp

lemma TimerInv_cmd (cfg : HubCfg) (env : CommandEnv) (s : HubState) (isLocking : Bool)
    (hinv : TimerInv s) : TimerInv (hubLockCommand cfg env s isLocking).state := by
  unfold hubLockCommand
  by_cases ho : cfg.isOnline = true
  · rcases hdev : getCommandDeviceConfig cfg.uda with _ | device
    · simp only [ho, Bool.not_true, Bool.false_eq_true, if_false]
      exact hinv
    · simp only [ho, Bool.not_true, Bool.false_eq_true, if_false]
      set s1 := if (isLocking && s.handle.isSome) = true then cancelLockResetTimer s else s
        with hs1
      have hinv1 : TimerInv s1 := by
        rw [hs1]
        split
        · exact TimerInv_cancel s hinv
        · exact hinv
      repeat' split
      all_goals first
        | exact hinv1
        | exact TimerInv_schedule _ _ _ _ _ hinv1
  · simp only [Bool.not_eq_true] at ho
    simp only [ho]
    exact hinv

lemma TimerInv_unlockEvt (cfg : HubCfg) (s : HubState) (hinv : TimerInv s) :
    TimerInv (handleUnlockEvent cfg s) := by
  unfold handleUnlockEvent
  set s1 := if isG3Reader cfg.uda = true then { s with g3Override := none } else s with hs1
  have hinv1 : TimerInv s1 := by
    rw [hs1]
    split
    · exact hinv
    · exact hinv
  repeat' split
  all_goals first
    | exact hinv1
    | exact TimerInv_schedule _ _ _ _ _ hinv1

lemma TimerInv_grant (cfg : HubCfg) (s : HubState) (event eventObjectId : String)
    (hinv : TimerInv s) : TimerInv (handleAccessGrantedEvent cfg s event eventObjectId) := by
  unfold handleAccessGrantedEvent
  split
  · exact TimerInv_unlockEvt cfg s hinv
  · exact hinv

lemma pending_nil_of_handle_none (s : HubState) (hinv : TimerInv s) (hh : s.handle = none) :
    s.pending = [] := by
  unfold TimerInv at hinv
  rcases hp : s.pending with _ | ⟨t, _ | ⟨u, rest⟩⟩
  · rfl
  · rw [hp] at hinv
    rw [hh] at hinv
    cases hinv
  · rw [hp] at hinv
    exact hinv.elim

lemma lockCommand_cancels (cfg : HubCfg) (env : CommandEnv) (s : HubState) (device : Device)
    (honline : cfg.isOnline = true) (hdev : getCommandDeviceConfig cfg.uda = some device)
    (hinv : TimerInv s) : (hubLockCommand cfg env s true).state.pending = [] := by
  unfold hubLockCommand
  rw [honline, hdev]
  simp only [Bool.not_true, Bool.false_eq_true, if_false]
  set s1 := if (true && s.handle.isSome) = true then cancelLockResetTimer s else s with hs1
  have hp1 : s1.pending = [] := by
    rw [hs1]
    split
    · exact cancelLockResetTimer_pending_nil s hinv
    · rename_i hc
      rcases hh : s.handle with _ | h
      · exact pending_nil_of_handle_none s hinv hh
      · rw [hh] at hc
        exact absurd rfl hc
  repeat' split
  all_goals first
    | exact hp1
    | exact absurd ‹(false && cfg.lockDelayInterval.isNone) = true› (by simp)

/-- Claim C5: at most one auto-reset timer is ever live per device —
scheduling always cancels the owned timer first and arms exactly one new
timer, the timer-ownership invariant is preserved by every hub operation
and bounds the pending-timer count by one, an explicit lock command leaves
no pending timer, and a second default unlock while a reset is pending
results in exactly one pending timer whose single firing performs exactly
one relock attempt. -/
theorem claim_C5_single_timer :
    (∀ (cfg : HubCfg) (s : HubState) (device : Device) (attempt : Nat) (delay : Option Nat),
      (scheduleDefaultLockReset cfg s device attempt delay).pending =
        (cancelLockResetTimer s).pending ++
          [⟨(cancelLockResetTimer s).nextId, attempt,
            delay.getD (if isG3Reader cfg.uda then G3_READER_LOCK_RESET_DELAY
              else DEFAULT_LOCK_RESET_DELAY), device⟩] ∧
      (scheduleDefaultLockReset cfg s device attempt delay).handle =
        some (cancelLockResetTimer s).nextId) ∧
    (∀ (cfg : HubCfg) (s s' : HubState), TimerInv s → HubStep cfg s s' → TimerInv s') ∧
    (∀ s : HubState, TimerInv s → s.pending.length ≤ 1) ∧
    (∀ (cfg : HubCfg) (env : CommandEnv) (s : HubState) (device : Device),
      cfg.isOnline = true → getCommandDeviceConfig cfg.uda = some device → TimerInv s →
      (hubLockCommand cfg env s true).state.pending = []) ∧
    ((hubLockCommand cfgStd ⟨true, true⟩ sUnlockStd false).state.pending.map
        (fun t => (t.attempt, t.delayMs)) = [(0, DEFAULT_LOCK_RESET_DELAY)] ∧
      (hubLockCommand cfgStd ⟨true, true⟩ sUnlockStd false).state.pending.length = 1 ∧
      (fireLockResetTimer cfgStd ⟨true, .ok⟩
          (hubLockCommand cfgStd ⟨true, true⟩ sUnlockStd false).state
          (((hubLockCommand cfgStd ⟨true, true⟩ sUnlockStd false).state.pending).headD
            ⟨0, 0, 0, stdHubDevice⟩)).resetInvocations =
        (hubLockCommand cfgStd ⟨true, true⟩ sUnlockStd false).state.resetInvocations + 1 ∧
      (fireLockResetTimer cfgStd ⟨true, .ok⟩
          (hubLockCommand cfgStd ⟨true, true⟩ sUnlockStd false).state
          (((hubLockCommand cfgStd ⟨true, true⟩ sUnlockStd false).state.pending).headD
            ⟨0, 0, 0, stdHubDevice⟩)).pending = []) := by
  refine ⟨fun cfg s device attempt delay => ⟨rfl, rfl⟩, ?_, ?_, lockCommand_cancels,
    by decide, by decide, by decide, by decide⟩
  · intro cfg s s' hinv hstep
    cases hstep with
    | lockCmd env isLocking _ => exact TimerInv_cmd cfg env s isLocking hinv
    | timerFire env _ t ht => exact TimerInv_fire cfg env s t hinv ht
    | accessGranted _ event eventObjectId => exact TimerInv_grant cfg s event eventObjectId hinv
    | unlockEvt _ => exact TimerInv_unlockEvt cfg s hinv
    | cleanupEvt _ => exact TimerInv_cancel s hinv
  · intro s hinv
    unfold TimerInv at hinv
    rcases hp : s.pending with _ | ⟨t, _ | ⟨u, rest⟩⟩
    · simp
    · simp
    · rw [hp] at hinv
      exact hinv.elim

/-- Witness for claim C5: the explicit lock on the pending-reset state of
the standard hub leaves no pending timer. -/
theorem claim_C5_witness :
    (hubLockCommand cfgStd ⟨true, true⟩ sUnlockStd true).state.pending = [] :=
  claim_C5_single_timer.2.2.2.1 cfgStd ⟨true, true⟩ sUnlockStd stdHubDevice rfl (by decide) rfl

end UnifiAccess
